import Mathlib

/-!
Shallow embedding of `robot3D_basic.py` (forward kinematics of a planar
serial-link arm) over exact real arithmetic, together with proofs of the
specification's claims about it.

Python exceptions are modelled by `Except String`: an out-of-range list
access becomes an `IndexError` value, and reading the unassigned local
`rotation_matrix` (the fall-through of the axis dispatch) becomes an
`UnboundLocalError` value.
-/

open Matrix

/-- Embedding of `RotationMatrix(theta, axis_name)` (robot3D_basic.py lines
8-32).  The angle is in degrees and is converted to radians.  The Python code
dispatches on the axis with `if axis_name == 'x': ... if axis_name == 'y':
... elif axis_name == 'z': ...`; for any other axis name the local variable
`rotation_matrix` is never assigned, so the `return` raises
`UnboundLocalError`. -/
noncomputable def RotationMatrix (theta : ℝ) (axis_name : String) :
    Except String (Matrix (Fin 3) (Fin 3) ℝ) :=
  let c := Real.cos (theta * Real.pi / 180)
  let s := Real.sin (theta * Real.pi / 180)
  if axis_name = "x" then
    Except.ok !![1, 0, 0;
                 0, c, -s;
                 0, s, c]
  else if axis_name = "y" then
    Except.ok !![c, 0, s;
                 0, 1, 0;
                 -s, 0, c]
  else if axis_name = "z" then
    Except.ok !![c, -s, 0;
                 s, c, 0;
                 0, 0, 1]
  else
    Except.error "UnboundLocalError: local variable referenced before assignment"

/-- Embedding of `getLocalFrameMatrix(R_ij, t_ij)` (robot3D_basic.py lines
87-99): the 4x4 rigid-body transform `np.block([[R, t], [0 0 0, 1]])`. -/
def getLocalFrameMatrix (R_ij : Matrix (Fin 3) (Fin 3) ℝ) (t_ij : Fin 3 → ℝ) :
    Matrix (Fin 4) (Fin 4) ℝ :=
  !![R_ij 0 0, R_ij 0 1, R_ij 0 2, t_ij 0;
     R_ij 1 0, R_ij 1 1, R_ij 1 2, t_ij 1;
     R_ij 2 0, R_ij 2 1, R_ij 2 2, t_ij 2;
     0, 0, 0, 1]

/-- Python list subscript `xs[i]`: out of range raises `IndexError`. -/
def pyGetItem (xs : List ℝ) (i : ℕ) : Except String ℝ :=
  match xs.get? i with
  | some x => Except.ok x
  | none => Except.error "IndexError: list index out of range"

/-- Embedding of `forward_kinematics(Phi, L1, L2, L3, L4)` (robot3D_basic.py
lines 101-136).  `Phi` is the Python list of joint angles (degrees); the link
lengths are the four scalar parameters of the Python signature (`L4` is bound
but never read by the body).  Returns the tuple
`(T_01, T_02, T_03, T_04, e)` exactly as the source does, with
`e = T_04[0:3, -1]`. -/
noncomputable def forward_kinematics (Phi : List ℝ) (L1 L2 L3 L4 : ℝ) :
    Except String (Matrix (Fin 4) (Fin 4) ℝ × Matrix (Fin 4) (Fin 4) ℝ ×
      Matrix (Fin 4) (Fin 4) ℝ × Matrix (Fin 4) (Fin 4) ℝ × (Fin 3 → ℝ)) := do
  let r1 : ℝ := 0.4
  -- Matrix 1
  let R_01 ← RotationMatrix (← pyGetItem Phi 0) "z"
  let t_01 : Fin 3 → ℝ := ![3, 2, 0]
  let T_01 := getLocalFrameMatrix R_01 t_01
  -- Matrix 2
  let R_12 ← RotationMatrix (← pyGetItem Phi 1) "z"
  let t_12 : Fin 3 → ℝ := ![L1 + 2 * r1, 0, 0]
  let T_12 := getLocalFrameMatrix R_12 t_12
  let T_02 := T_01 * T_12
  -- Matrix 3
  let R_23 ← RotationMatrix (← pyGetItem Phi 2) "z"
  let t_23 : Fin 3 → ℝ := ![L2 + 2 * r1, 0, 0]
  let T_23 := getLocalFrameMatrix R_23 t_23
  let T_03 := T_01 * T_12 * T_23
  -- Matrix 4
  let R_34 ← RotationMatrix (← pyGetItem Phi 3) "z"
  let t_34 : Fin 3 → ℝ := ![L3 + 2 * r1, 0, 0]
  let T_34 := getLocalFrameMatrix R_34 t_34
  let T_04 := T_01 * T_12 * T_23 * T_34
  let e : Fin 3 → ℝ := fun i => T_04 i.castSucc 3
  return (T_01, T_02, T_03, T_04, e)

/-- The z-axis rotation matrix the source builds for angle `θ` (degrees):
the value `RotationMatrix θ "z"` successfully returns. -/
noncomputable def Rz (θ : ℝ) : Matrix (Fin 3) (Fin 3) ℝ :=
  !![Real.cos (θ * Real.pi / 180), -Real.sin (θ * Real.pi / 180), 0;
     Real.sin (θ * Real.pi / 180), Real.cos (θ * Real.pi / 180), 0;
     0, 0, 1]

theorem RotationMatrix_z (θ : ℝ) : RotationMatrix θ "z" = Except.ok (Rz θ) := by
  simp [RotationMatrix, Rz]

theorem RotationMatrix_x (θ : ℝ) :
    RotationMatrix θ "x" =
      Except.ok !![1, 0, 0;
                   0, Real.cos (θ * Real.pi / 180), -Real.sin (θ * Real.pi / 180);
                   0, Real.sin (θ * Real.pi / 180), Real.cos (θ * Real.pi / 180)] := by
  simp [RotationMatrix]

theorem RotationMatrix_y (θ : ℝ) :
    RotationMatrix θ "y" =
      Except.ok !![Real.cos (θ * Real.pi / 180), 0, Real.sin (θ * Real.pi / 180);
                   0, 1, 0;
                   -Real.sin (θ * Real.pi / 180), 0, Real.cos (θ * Real.pi / 180)] := by
  simp [RotationMatrix]

/-- The per-joint local transform of joint 1 built inside
`forward_kinematics`: `getLocalFrameMatrix(RotationMatrix(Phi[0],'z'), p1)`
with `p1 = [[3],[2],[0]]`. -/
noncomputable def localT_01 (φ : ℝ) : Matrix (Fin 4) (Fin 4) ℝ :=
  getLocalFrameMatrix (Rz φ) ![3, 2, 0]

/-- Joint 2's local transform, translation `[[L1 + 2*r1],[0],[0]]`, r1 = 0.4. -/
noncomputable def localT_12 (φ L1 : ℝ) : Matrix (Fin 4) (Fin 4) ℝ :=
  getLocalFrameMatrix (Rz φ) ![L1 + 2 * 0.4, 0, 0]

/-- Joint 3's local transform, translation `[[L2 + 2*r1],[0],[0]]`, r1 = 0.4. -/
noncomputable def localT_23 (φ L2 : ℝ) : Matrix (Fin 4) (Fin 4) ℝ :=
  getLocalFrameMatrix (Rz φ) ![L2 + 2 * 0.4, 0, 0]

/-- Joint 4's local transform, translation `[[L3 + 2*r1],[0],[0]]`, r1 = 0.4. -/
noncomputable def localT_34 (φ L3 : ℝ) : Matrix (Fin 4) (Fin 4) ℝ :=
  getLocalFrameMatrix (Rz φ) ![L3 + 2 * 0.4, 0, 0]

/-- The transform translated to `(x, 2, 0)` with identity rotation: the shape
every world transform takes when all joint angles are zero. -/
def Tb (x : ℝ) : Matrix (Fin 4) (Fin 4) ℝ :=
  !![1, 0, 0, x;
     0, 1, 0, 2;
     0, 0, 1, 0;
     0, 0, 0, 1]

/-- Unfolding of `forward_kinematics` on a list carrying at least four
angles: the returned tuple in closed form. -/
theorem forward_kinematics_cons (a b c d : ℝ) (rest : List ℝ) (L1 L2 L3 L4 : ℝ) :
    forward_kinematics (a :: b :: c :: d :: rest) L1 L2 L3 L4 =
      Except.ok (localT_01 a,
        localT_01 a * localT_12 b L1,
        localT_01 a * localT_12 b L1 * localT_23 c L2,
        localT_01 a * localT_12 b L1 * localT_23 c L2 * localT_34 d L3,
        fun i => (localT_01 a * localT_12 b L1 * localT_23 c L2 * localT_34 d L3)
          i.castSucc 3) := by
  rfl

/-- Block multiplication law for the rigid-body transforms built by
`getLocalFrameMatrix`: rotations compose and the translation of the product
is `R ·v u + t`. -/
theorem getLocalFrameMatrix_mul (R S : Matrix (Fin 3) (Fin 3) ℝ) (t u : Fin 3 → ℝ) :
    getLocalFrameMatrix R t * getLocalFrameMatrix S u =
      getLocalFrameMatrix (R * S) (fun i => R.mulVec u i + t i) := by
  ext i j
  fin_cases i <;> fin_cases j <;>
    simp [getLocalFrameMatrix, Matrix.mul_apply, Matrix.mulVec, dotProduct,
      Fin.sum_univ_four, Fin.sum_univ_three]

theorem Rz_zero : Rz 0 = 1 := by
  rw [Matrix.one_fin_three, Rz]
  norm_num

theorem getLocalFrameMatrix_bottom (R : Matrix (Fin 3) (Fin 3) ℝ) (t : Fin 3 → ℝ) :
    getLocalFrameMatrix R t 3 = ![0, 0, 0, 1] := by
  funext j
  fin_cases j <;> simp [getLocalFrameMatrix]

theorem bottom_row_mul (A B : Matrix (Fin 4) (Fin 4) ℝ)
    (hA : A 3 = ![0, 0, 0, 1]) (hB : B 3 = ![0, 0, 0, 1]) :
    (A * B) 3 = ![0, 0, 0, 1] := by
  funext j
  simp [Matrix.mul_apply, Fin.sum_univ_four, hA, hB]

/-- A transform whose rotation block is a z-rotation and whose translation has
zero z-component has third row `(0, 0, 1, 0)`. -/
theorem localT_third_row (φ x y : ℝ) :
    getLocalFrameMatrix (Rz φ) ![x, y, 0] 2 = ![0, 0, 1, 0] := by
  funext j
  fin_cases j <;> simp [getLocalFrameMatrix, Rz]

theorem third_row_mul (A B : Matrix (Fin 4) (Fin 4) ℝ)
    (hA : A 2 = ![0, 0, 1, 0]) (hB : B 2 = ![0, 0, 1, 0]) :
    (A * B) 2 = ![0, 0, 1, 0] := by
  funext j
  simp [Matrix.mul_apply, Fin.sum_univ_four, hA, hB]

theorem localT_01_zero : localT_01 0 = Tb 3 := by
  rw [localT_01, Rz_zero]
  ext i j
  fin_cases i <;> fin_cases j <;>
    simp [getLocalFrameMatrix, Tb, Matrix.one_apply, Matrix.vecHead, Matrix.vecTail]

theorem Tb_mul (x d : ℝ) : Tb x * getLocalFrameMatrix 1 ![d, 0, 0] = Tb (x + d) := by
  ext i j
  fin_cases i <;> fin_cases j <;>
    simp [getLocalFrameMatrix, Tb, Matrix.mul_apply, Fin.sum_univ_four, Matrix.one_apply,
      Matrix.vecHead, Matrix.vecTail] <;> ring

/-- `forward_kinematics` at all-zero joint angles (any surplus angles in
`rest` are ignored), in closed form: every world transform is a pure
translation along x accumulated from the base offset 3 and the per-link
offsets `Li + 2*r1`, at height y = 2. -/
theorem forward_kinematics_zero (rest : List ℝ) (L1 L2 L3 L4 : ℝ) :
    forward_kinematics (0 :: 0 :: 0 :: 0 :: rest) L1 L2 L3 L4 =
      Except.ok (Tb 3,
        Tb (3 + (L1 + 2 * 0.4)),
        Tb (3 + (L1 + 2 * 0.4) + (L2 + 2 * 0.4)),
        Tb (3 + (L1 + 2 * 0.4) + (L2 + 2 * 0.4) + (L3 + 2 * 0.4)),
        ![3 + (L1 + 2 * 0.4) + (L2 + 2 * 0.4) + (L3 + 2 * 0.4), 2, 0]) := by
  rw [forward_kinematics_cons]
  have h12 : localT_12 0 L1 = getLocalFrameMatrix 1 ![L1 + 2 * 0.4, 0, 0] := by
    rw [localT_12, Rz_zero]
  have h23 : localT_23 0 L2 = getLocalFrameMatrix 1 ![L2 + 2 * 0.4, 0, 0] := by
    rw [localT_23, Rz_zero]
  have h34 : localT_34 0 L3 = getLocalFrameMatrix 1 ![L3 + 2 * 0.4, 0, 0] := by
    rw [localT_34, Rz_zero]
  rw [localT_01_zero, h12, h23, h34, Tb_mul, Tb_mul, Tb_mul]
  refine congrArg _ (Prod.ext rfl (Prod.ext rfl (Prod.ext rfl (Prod.ext rfl ?_))))
  funext i
  fin_cases i <;> rfl

/-- C1: for every input configuration on which `forward_kinematics` returns,
each returned world transform equals the left-associative product of the
per-joint local transforms up to that frame: `T_02 = T_01 * T_12`,
`T_03 = T_01 * T_12 * T_23`, `T_04 = T_01 * T_12 * T_23 * T_34` (each
`localT_ij` being `getLocalFrameMatrix` of the z-rotation at the joint angle
and the source's translation vector); in particular `T_03` computed
incrementally as `T_02 * T_23` equals the direct product. -/
theorem fk_world_transforms_left_products
    (a b c d : ℝ) (rest : List ℝ) (L1 L2 L3 L4 : ℝ)
    (S1 S2 S3 S4 : Matrix (Fin 4) (Fin 4) ℝ) (e : Fin 3 → ℝ)
    (h : forward_kinematics (a :: b :: c :: d :: rest) L1 L2 L3 L4 =
      Except.ok (S1, S2, S3, S4, e)) :
    S1 = localT_01 a ∧
    S2 = S1 * localT_12 b L1 ∧
    S3 = S1 * localT_12 b L1 * localT_23 c L2 ∧
    S3 = S2 * localT_23 c L2 ∧
    S4 = S1 * localT_12 b L1 * localT_23 c L2 * localT_34 d L3 := by
  rw [forward_kinematics_cons] at h
  simp only [Except.ok.injEq, Prod.mk.injEq] at h
  obtain ⟨h1, h2, h3, h4, -⟩ := h
  subst h1 h2 h3 h4
  exact ⟨rfl, rfl, rfl, rfl, rfl⟩

/-- Closed instance of the C1 theorem at all-zero angles and unit lengths. -/
theorem fk_world_transforms_left_products_witness :
    Tb 3 = localT_01 0 ∧
    Tb (3 + (1 + 2 * 0.4)) = Tb 3 * localT_12 0 1 ∧
    Tb (3 + (1 + 2 * 0.4) + (1 + 2 * 0.4)) =
      Tb 3 * localT_12 0 1 * localT_23 0 1 ∧
    Tb (3 + (1 + 2 * 0.4) + (1 + 2 * 0.4)) =
      Tb (3 + (1 + 2 * 0.4)) * localT_23 0 1 ∧
    Tb (3 + (1 + 2 * 0.4) + (1 + 2 * 0.4) + (1 + 2 * 0.4)) =
      Tb 3 * localT_12 0 1 * localT_23 0 1 * localT_34 0 1 :=
  fk_world_transforms_left_products 0 0 0 0 [] 1 1 1 1 _ _ _ _ _
    (forward_kinematics_zero [] 1 1 1 1)

/-- C2: for every link lengths, with all four joint angles 0 the end-effector
position returned by `forward_kinematics` is the base offset plus the three
link-length-plus-offset terms summed along the x-axis:
`(3 + (L1 + 2*0.4) + (L2 + 2*0.4) + (L3 + 2*0.4), 2, 0)`. -/
theorem fk_zero_angles_end_effector (L1 L2 L3 L4 : ℝ) :
    ∃ S1 S2 S3 S4, forward_kinematics [0, 0, 0, 0] L1 L2 L3 L4 =
      Except.ok (S1, S2, S3, S4,
        ![3 + (L1 + 2 * 0.4) + (L2 + 2 * 0.4) + (L3 + 2 * 0.4), 2, 0]) :=
  ⟨_, _, _, _, forward_kinematics_zero [] L1 L2 L3 L4⟩

/-- C3: for every angle and every recognized axis, the matrix returned by
`RotationMatrix` is orthonormal: `R * Rᵀ = 1` and `det R = 1` (exact real
arithmetic). -/
theorem RotationMatrix_orthonormal (θ : ℝ) (axis : String)
    (R : Matrix (Fin 3) (Fin 3) ℝ)
    (hax : axis = "x" ∨ axis = "y" ∨ axis = "z")
    (hR : RotationMatrix θ axis = Except.ok R) :
    R * R.transpose = 1 ∧ R.det = 1 := by
  have hpyth := Real.sin_sq_add_cos_sq (θ * Real.pi / 180)
  rcases hax with rfl | rfl | rfl
  · rw [RotationMatrix_x] at hR
    injection hR with hR
    subst hR
    constructor
    · ext i j
      fin_cases i <;> fin_cases j <;>
        simp [Matrix.mul_apply, Fin.sum_univ_three, Matrix.one_apply,
          Matrix.vecHead, Matrix.vecTail] <;>
        first
          | ring1
          | linear_combination hpyth
    · rw [Matrix.det_fin_three]
      simp [Matrix.vecHead, Matrix.vecTail]
      linear_combination hpyth
  · rw [RotationMatrix_y] at hR
    injection hR with hR
    subst hR
    constructor
    · ext i j
      fin_cases i <;> fin_cases j <;>
        simp [Matrix.mul_apply, Fin.sum_univ_three, Matrix.one_apply,
          Matrix.vecHead, Matrix.vecTail] <;>
        first
          | ring1
          | linear_combination hpyth
    · rw [Matrix.det_fin_three]
      simp [Matrix.vecHead, Matrix.vecTail]
      linear_combination hpyth
  · rw [RotationMatrix_z] at hR
    injection hR with hR
    subst hR
    constructor
    · ext i j
      fin_cases i <;> fin_cases j <;>
        simp [Rz, Matrix.mul_apply, Fin.sum_univ_three, Matrix.one_apply,
          Matrix.vecHead, Matrix.vecTail] <;>
        first
          | ring1
          | linear_combination hpyth
    · rw [Matrix.det_fin_three]
      simp [Rz, Matrix.vecHead, Matrix.vecTail]
      linear_combination hpyth

/-- Closed instance of the C3 theorem at angle 0 about the z-axis. -/
theorem RotationMatrix_orthonormal_witness :
    Rz 0 * (Rz 0).transpose = 1 ∧ (Rz 0).det = 1 :=
  RotationMatrix_orthonormal 0 "z" (Rz 0) (Or.inr (Or.inr rfl)) (RotationMatrix_z 0)

/-- C4: at the failing input (angle 30, axis "w"), `RotationMatrix` returns no
matrix: the Python body never assigns its result variable for an axis outside
x, y, z, so the return raises `UnboundLocalError` — an unbound-variable crash,
not a descriptive `InvalidAxis` error (no such error exists in the code). -/
theorem RotationMatrix_invalid_axis_unbound :
    RotationMatrix 30 "w" =
      Except.error "UnboundLocalError: local variable referenced before assignment" := by
  rfl

/-- C5: for every rotation block and translation vector, the transform built
by `getLocalFrameMatrix` maps the homogeneous origin `(0,0,0,1)` to the
translation appended with 1. -/
theorem getLocalFrameMatrix_origin (R : Matrix (Fin 3) (Fin 3) ℝ) (t : Fin 3 → ℝ) :
    (getLocalFrameMatrix R t).mulVec ![0, 0, 0, 1] = ![t 0, t 1, t 2, 1] := by
  funext i
  fin_cases i <;>
    simp [getLocalFrameMatrix, Matrix.mulVec, dotProduct, Fin.sum_univ_four,
      Matrix.vecHead, Matrix.vecTail]

/-- C6: every transform produced by `getLocalFrameMatrix` has bottom row
`[0,0,0,1]`; the row is preserved by the matrix products used for
composition; and every world transform returned by `forward_kinematics` has
bottom row `[0,0,0,1]`. -/
theorem transforms_bottom_row (R : Matrix (Fin 3) (Fin 3) ℝ) (t : Fin 3 → ℝ)
    (A B : Matrix (Fin 4) (Fin 4) ℝ)
    (hA : A 3 = ![0, 0, 0, 1]) (hB : B 3 = ![0, 0, 0, 1])
    (a b c d : ℝ) (rest : List ℝ) (L1 L2 L3 L4 : ℝ)
    (S1 S2 S3 S4 : Matrix (Fin 4) (Fin 4) ℝ) (e : Fin 3 → ℝ)
    (h : forward_kinematics (a :: b :: c :: d :: rest) L1 L2 L3 L4 =
      Except.ok (S1, S2, S3, S4, e)) :
    getLocalFrameMatrix R t 3 = ![0, 0, 0, 1] ∧
    (A * B) 3 = ![0, 0, 0, 1] ∧
    S1 3 = ![0, 0, 0, 1] ∧ S2 3 = ![0, 0, 0, 1] ∧
    S3 3 = ![0, 0, 0, 1] ∧ S4 3 = ![0, 0, 0, 1] := by
  rw [forward_kinematics_cons] at h
  simp only [Except.ok.injEq, Prod.mk.injEq] at h
  obtain ⟨h1, h2, h3, h4, -⟩ := h
  subst h1 h2 h3 h4
  have b01 : localT_01 a 3 = ![0, 0, 0, 1] := getLocalFrameMatrix_bottom _ _
  have b12 : localT_12 b L1 3 = ![0, 0, 0, 1] := getLocalFrameMatrix_bottom _ _
  have b23 : localT_23 c L2 3 = ![0, 0, 0, 1] := getLocalFrameMatrix_bottom _ _
  have b34 : localT_34 d L3 3 = ![0, 0, 0, 1] := getLocalFrameMatrix_bottom _ _
  have b2 := bottom_row_mul _ _ b01 b12
  have b3 := bottom_row_mul _ _ b2 b23
  have b4 := bottom_row_mul _ _ b3 b34
  exact ⟨getLocalFrameMatrix_bottom R t, bottom_row_mul A B hA hB, b01, b2, b3, b4⟩

/-- Closed instance of the C6 theorem at all-zero angles and unit lengths. -/
theorem transforms_bottom_row_witness :
    getLocalFrameMatrix (Rz 0) ![3, 2, 0] 3 = ![0, 0, 0, 1] ∧
    (Tb 3 * Tb 3) 3 = ![0, 0, 0, 1] ∧
    Tb 3 3 = ![0, 0, 0, 1] ∧ Tb (3 + (1 + 2 * 0.4)) 3 = ![0, 0, 0, 1] ∧
    Tb (3 + (1 + 2 * 0.4) + (1 + 2 * 0.4)) 3 = ![0, 0, 0, 1] ∧
    Tb (3 + (1 + 2 * 0.4) + (1 + 2 * 0.4) + (1 + 2 * 0.4)) 3 = ![0, 0, 0, 1] :=
  transforms_bottom_row (Rz 0) ![3, 2, 0] (Tb 3) (Tb 3)
    (by funext j; fin_cases j <;> rfl) (by funext j; fin_cases j <;> rfl)
    0 0 0 0 [] 1 1 1 1 _ _ _ _ _ (forward_kinematics_zero [] 1 1 1 1)

/-- C7 counterexample: with five joint angles and the four scalar link
lengths of the signature (counts differ), `forward_kinematics` does not fail
with any `DimensionMismatch` error — it computes and returns all four world
transforms, silently ignoring the surplus angle. -/
theorem fk_no_dimension_check_counterexample :
    forward_kinematics [0, 0, 0, 0, 0] 1 1 1 1 =
      Except.ok (Tb 3,
        Tb (3 + (1 + 2 * 0.4)),
        Tb (3 + (1 + 2 * 0.4) + (1 + 2 * 0.4)),
        Tb (3 + (1 + 2 * 0.4) + (1 + 2 * 0.4) + (1 + 2 * 0.4)),
        ![3 + (1 + 2 * 0.4) + (1 + 2 * 0.4) + (1 + 2 * 0.4), 2, 0]) :=
  forward_kinematics_zero [0] 1 1 1 1

/-- C7 amended: `forward_kinematics` performs no dimension check and has no
`DimensionMismatch` error. It reads exactly the first four joint angles:
with fewer than four angles it fails with the `IndexError` raised by the
list subscript, and with four or more it returns a full result, ignoring
surplus angles (and the unused length `L4`). -/
theorem fk_no_dimension_check (Phi : List ℝ) (L1 L2 L3 L4 : ℝ) :
    (Phi.length < 4 →
      forward_kinematics Phi L1 L2 L3 L4 =
        Except.error "IndexError: list index out of range") ∧
    (4 ≤ Phi.length →
      ∃ out, forward_kinematics Phi L1 L2 L3 L4 = Except.ok out) := by
  rcases Phi with _ | ⟨a, _ | ⟨b, _ | ⟨c, _ | ⟨d, rest⟩⟩⟩⟩
  · exact ⟨fun _ => rfl, fun hlen => absurd hlen (by simp)⟩
  · exact ⟨fun _ => rfl, fun hlen => absurd hlen (by simp)⟩
  · exact ⟨fun _ => rfl, fun hlen => absurd hlen (by simp)⟩
  · exact ⟨fun _ => rfl, fun hlen => absurd hlen (by simp)⟩
  · refine ⟨fun hlen => absurd hlen (by simp), fun _ =>
      ⟨_, forward_kinematics_cons a b c d rest L1 L2 L3 L4⟩⟩

/-- Closed instance of the C7 amended theorem: one angle gives `IndexError`,
five angles give a successful result. -/
theorem fk_no_dimension_check_witness :
    forward_kinematics [0] 1 1 1 1 =
      Except.error "IndexError: list index out of range" ∧
    ∃ out, forward_kinematics [0, 0, 0, 0, 0] 1 1 1 1 = Except.ok out :=
  ⟨(fk_no_dimension_check [0] 1 1 1 1).1 (by simp),
   (fk_no_dimension_check [0, 0, 0, 0, 0] 1 1 1 1).2 (by simp)⟩

/-- C9: the output of `forward_kinematics` is independent of its last
argument `L4`: the body never reads it. -/
theorem fk_independent_of_L4 (Phi : List ℝ) (L1 L2 L3 L4 L4' : ℝ) :
    forward_kinematics Phi L1 L2 L3 L4 = forward_kinematics Phi L1 L2 L3 L4' :=
  rfl

/-- C10: the arm stays planar — the z-component of the translation block of
every returned world transform, and of the end-effector position, is exactly
0: every joint rotation is about the z-axis and every translation vector has
zero z-component. -/
theorem fk_planar (a b c d : ℝ) (rest : List ℝ) (L1 L2 L3 L4 : ℝ)
    (S1 S2 S3 S4 : Matrix (Fin 4) (Fin 4) ℝ) (e : Fin 3 → ℝ)
    (h : forward_kinematics (a :: b :: c :: d :: rest) L1 L2 L3 L4 =
      Except.ok (S1, S2, S3, S4, e)) :
    S1 2 3 = 0 ∧ S2 2 3 = 0 ∧ S3 2 3 = 0 ∧ S4 2 3 = 0 ∧ e 2 = 0 := by
  rw [forward_kinematics_cons] at h
  simp only [Except.ok.injEq, Prod.mk.injEq] at h
  obtain ⟨h1, h2, h3, h4, h5⟩ := h
  subst h1 h2 h3 h4 h5
  have r01 : localT_01 a 2 = ![0, 0, 1, 0] := localT_third_row a 3 2
  have r12 : localT_12 b L1 2 = ![0, 0, 1, 0] := localT_third_row b (L1 + 2 * 0.4) 0
  have r23 : localT_23 c L2 2 = ![0, 0, 1, 0] := localT_third_row c (L2 + 2 * 0.4) 0
  have r34 : localT_34 d L3 2 = ![0, 0, 1, 0] := localT_third_row d (L3 + 2 * 0.4) 0
  have r2 := third_row_mul _ _ r01 r12
  have r3 := third_row_mul _ _ r2 r23
  have r4 := third_row_mul _ _ r3 r34
  exact ⟨congrFun r01 3, congrFun r2 3, congrFun r3 3, congrFun r4 3, congrFun r4 3⟩

/-- Closed instance of the C10 theorem at all-zero angles and unit lengths. -/
theorem fk_planar_witness :
    Tb 3 2 3 = 0 ∧ Tb (3 + (1 + 2 * 0.4)) 2 3 = 0 ∧
    Tb (3 + (1 + 2 * 0.4) + (1 + 2 * 0.4)) 2 3 = 0 ∧
    Tb (3 + (1 + 2 * 0.4) + (1 + 2 * 0.4) + (1 + 2 * 0.4)) 2 3 = 0 ∧
    (![3 + (1 + 2 * 0.4) + (1 + 2 * 0.4) + (1 + 2 * 0.4), 2, 0] : Fin 3 → ℝ) 2 = 0 :=
  fk_planar 0 0 0 0 [] 1 1 1 1 _ _ _ _ _ (forward_kinematics_zero [] 1 1 1 1)
